import Mathlib

/-!
Shallow embedding of the store-directory core (Store model: slug assignment,
tag aggregation, top-stores aggregation, review auto-population, and creation
validation). Definitions are translated from the source schema and its hooks;
machine strings are modelled as their character lists and numbers as rationals.
-/

namespace StoreApp

/-! ### String helpers (structural, kernel-computable) -/

/-- Trims leading and trailing whitespace, mirroring the trimming setter on
the `name` field of the store schema. -/
def strTrim (s : String) : String :=
  ⟨((s.data.dropWhile Char.isWhitespace).reverse.dropWhile Char.isWhitespace).reverse⟩

/-- Splits a character list on spaces, dropping empty words. The accumulator
holds the current word reversed. -/
def wordsAux : List Char → List Char → List (List Char)
  | [], acc => if acc.isEmpty then [] else [acc.reverse]
  | c :: cs, acc =>
    if c = ' ' then
      (if acc.isEmpty then wordsAux cs [] else acc.reverse :: wordsAux cs [])
    else wordsAux cs (c :: acc)

/-- Joins words with single hyphens. -/
def joinHyphen : List (List Char) → List Char
  | [] => []
  | [w] => w
  | w :: ws => w ++ '-' :: joinHyphen ws

/-- Modelled from the spec: the slug normalization performed by the external
`slugs` package, which is not part of this repository. It lowercases the
name and replaces runs of whitespace and punctuation by single hyphens
(restricted here to ASCII input; diacritic stripping is not modelled). -/
def slugify (s : String) : String :=
  ⟨joinHyphen (wordsAux (s.data.map (fun c => if c.isAlphanum then c.toLower else ' ')) [])⟩

/-- Lexicographic comparison of character lists by code point, the order the
storage layer uses when sorting string keys. -/
def charListLe : List Char → List Char → Bool
  | [], _ => true
  | _ :: _, [] => false
  | a :: as, b :: bs =>
    if a.toNat < b.toNat then true
    else if b.toNat < a.toNat then false
    else charListLe as bs

/-! ### Slug collision matching (the pre-save hook of the store schema) -/

/-- Strips `base` from the front of a character list, returning the remainder,
or `none` when `base` is not an initial segment. -/
def stripBase : List Char → List Char → Option (List Char)
  | [], b => some b
  | _ :: _, [] => none
  | a :: as, c :: cs => if a = c then stripBase as cs else none

/-- Decides whether the remainder after the base slug fits the optional group
`(-[0-9]*$)?` of the hook's collision regex: either nothing, or a hyphen
followed by zero or more digits. -/
def suffixMatches (rest : List Char) : Bool :=
  match rest with
  | [] => true
  | c :: ds => c == '-' && ds.all (fun d => d.isDigit)

/-- Matching of a stored slug against the hook's collision regex
`^(base)((-[0-9]*$)?)$` with the case-insensitive flag, modelled by
lowercasing both sides. -/
def matchesSlug (base s : String) : Bool :=
  match stripBase (base.data.map Char.toLower) (s.data.map Char.toLower) with
  | some rest => suffixMatches rest
  | none => false

/-- Pattern stated by the spec for collision counting: the base slug itself
or the base followed by a hyphen and ONE or more digits
(`^(base)(-[0-9]+)?$`, case-insensitive). Written from the spec's words, to
be compared against `matchesSlug`, which embeds the source regex. -/
def specPatternMatches (base s : String) : Bool :=
  match stripBase (base.data.map Char.toLower) (s.data.map Char.toLower) with
  | some [] => true
  | some (c :: ds) => c == '-' && !ds.isEmpty && ds.all (fun d => d.isDigit)
  | none => false

/-- Count-based slug assignment of the pre-save hook: count existing slugs
matching the collision regex; if none match the base is used as-is, else the
new slug is the base followed by a hyphen and count + 1. -/
def assignSlug (base : String) (existing : List String) : String :=
  if (existing.filter (fun s => matchesSlug base s)).length = 0 then base
  else base ++ "-" ++ toString ((existing.filter (fun s => matchesSlug base s)).length + 1)

/-! ### Store records, validation and creation -/

/-- Input to store creation; optional fields model fields a caller may omit.
An omitted coordinates array is cast to the empty array by the driver, so
coordinates are kept as a plain list. -/
structure StoreInput where
  name : Option String
  address : Option String
  author : Option Nat
  coordinates : List ℚ
  tags : List String
deriving DecidableEq

/-- A persisted store record (the fields the verified claims touch). There is
no reviews field on the record: reviews are attached only as a computed view
on reads. -/
structure StoreRecord where
  name : String
  slug : String
  address : String
  author : Nat
  coordinates : List ℚ
  tags : List String
deriving DecidableEq

/-- Validation failures raised before anything is written. -/
inductive ValidationError where
  | missingName
  | missingAddress
  | missingAuthor
deriving DecidableEq

/-- Schema validation, run before the save hooks: `name` is trimmed and
required non-empty, `location.address` and `author` are required. The
coordinates array is typed as numbers but its length is not constrained by
the schema. -/
def validateInput (input : StoreInput) : Except ValidationError Unit :=
  if (input.name.map strTrim).getD "" = "" then Except.error ValidationError.missingName
  else if input.address.getD "" = "" then Except.error ValidationError.missingAddress
  else if input.author = none then Except.error ValidationError.missingAuthor
  else Except.ok ()

/-- Creation of a store against a catalog of already persisted records:
validation first (an error persists nothing), then the pre-save hook derives
the slug from the name and resolves collisions against the persisted slugs,
then the record is appended to the catalog. -/
def createStore (input : StoreInput) (catalog : List StoreRecord) :
    Except ValidationError (StoreRecord × List StoreRecord) :=
  match validateInput input with
  | Except.error e => Except.error e
  | Except.ok _ =>
      let nm := strTrim (input.name.getD "")
      let newSlug := assignSlug (slugify nm) (catalog.map StoreRecord.slug)
      let st : StoreRecord :=
        { name := nm, slug := newSlug, address := input.address.getD "",
          author := input.author.getD 0, coordinates := input.coordinates,
          tags := input.tags }
      Except.ok (st, catalog ++ [st])

/-- Slugs obtained by creating stores with the given names one after another,
each save completing before the next begins, starting from an empty catalog.
Address and author are fixed valid values. -/
def sequentialSlugs (names : List String) : List String :=
  (names.foldl
    (fun catalog nm =>
      match createStore ⟨some nm, some "123 Main St", some 1, [0, 0], []⟩ catalog with
      | Except.ok p => p.2
      | Except.error _ => catalog) []).map StoreRecord.slug

/-- The pre-save hook on an already persisted record: when the name is not
modified the hook returns immediately and the record is untouched; otherwise
the slug is re-derived from the name with collision resolution. -/
def preSaveSlug (st : StoreRecord) (nameModified : Bool) (existing : List String) :
    StoreRecord :=
  if nameModified then { st with slug := assignSlug (slugify st.name) existing }
  else st

/-! ### Aggregation over raw documents (statics on the store model) -/

/-- A raw store document as the aggregation pipeline sees it. -/
structure StoreDoc where
  id : Nat
  name : String
  slug : String
  photo : String
  tags : List String
deriving DecidableEq

/-- A raw review document: a reference to the owning store and a rating. -/
structure ReviewDoc where
  store : Nat
  rating : ℚ
deriving DecidableEq

/-- The lookup stage joins to each store the reviews whose store reference
equals the store's id. -/
def joinedReviews (reviews : List ReviewDoc) (s : StoreDoc) : List ReviewDoc :=
  reviews.filter (fun r => r.store == s.id)

/-- Result shape of the projection stage of the top-stores pipeline. -/
structure StoreSummary where
  id : Nat
  photo : String
  name : String
  slug : String
  reviews : List ReviewDoc
  averageRating : ℚ
deriving DecidableEq

/-- Average of the ratings of a review list. -/
def avgRating (rs : List ReviewDoc) : ℚ :=
  (rs.map ReviewDoc.rating).sum / (rs.length : ℚ)

/-- The projection stage keeps photo, name, reviews, slug (and the implicit
id) and adds the average rating of the joined reviews. -/
def mkSummary (s : StoreDoc) (rs : List ReviewDoc) : StoreSummary :=
  { id := s.id, photo := s.photo, name := s.name, slug := s.slug,
    reviews := rs, averageRating := avgRating rs }

/-- Lookup stage of the top-stores pipeline. -/
def lookupStage (stores : List StoreDoc) (reviews : List ReviewDoc) :
    List (StoreDoc × List ReviewDoc) :=
  stores.map (fun s => (s, joinedReviews reviews s))

/-- Match stage: keep the stores whose second joined review exists, that is,
those with at least two joined reviews. -/
def matchStage (joined : List (StoreDoc × List ReviewDoc)) :
    List (StoreDoc × List ReviewDoc) :=
  joined.filter (fun p => 2 ≤ p.2.length)

/-- Projection stage of the top-stores pipeline. -/
def projectStage (ps : List (StoreDoc × List ReviewDoc)) : List StoreSummary :=
  ps.map (fun p => mkSummary p.1 p.2)

/-- Sort key of the top-stores pipeline: average rating descending. -/
def summaryRel (a b : StoreSummary) : Prop :=
  b.averageRating ≤ a.averageRating

instance : DecidableRel summaryRel :=
  fun a b => inferInstanceAs (Decidable (b.averageRating ≤ a.averageRating))

/-- The top-stores pipeline: lookup, match, project, sort by average rating
descending, and a hard-coded truncation to ten entries. The static takes no
arguments in the source. -/
def getTopStores (stores : List StoreDoc) (reviews : List ReviewDoc) :
    List StoreSummary :=
  (((projectStage (matchStage (lookupStage stores reviews))).insertionSort summaryRel).take 10)

/-- Every tag occurrence across all stores, one list element per occurrence,
as produced by the unwind stage. -/
def allTagOccurrences (stores : List StoreDoc) : List String :=
  (stores.map StoreDoc.tags).flatten

/-- Sort key of the tag report: count descending, ties broken by tag value
ascending in code-point lexicographic order. -/
def tagLeB (a b : String × Nat) : Bool :=
  b.2 < a.2 || (a.2 == b.2 && charListLe a.1.data b.1.data)

/-- The tag sort key as a relation. -/
def tagRel (a b : String × Nat) : Prop :=
  tagLeB a b = true

instance : DecidableRel tagRel :=
  fun a b => inferInstanceAs (Decidable (tagLeB a b = true))

/-- The tag report pipeline: unwind every store's tags, group occurrences by
tag value with a count, and sort by count descending then tag ascending. -/
def getTagsList (stores : List StoreDoc) : List (String × Nat) :=
  (((allTagOccurrences stores).dedup.map
      (fun t => (t, (allTagOccurrences stores).count t))).insertionSort tagRel)

/-! ### Review auto-population on reads -/

/-- A store as returned by the read paths: the raw document plus the computed
reviews view. -/
structure PopulatedStore where
  store : StoreDoc
  reviews : List ReviewDoc
deriving DecidableEq

/-- The populate hook attaches to a store the reviews whose store reference
equals the store's id. -/
def populate (reviews : List ReviewDoc) (s : StoreDoc) : PopulatedStore :=
  ⟨s, reviews.filter (fun r => r.store == s.id)⟩

/-- The multi-record read path: every returned store passes through the
populate hook attached before find. -/
def findStores (keep : StoreDoc → Bool) (db : List StoreDoc)
    (reviews : List ReviewDoc) : List PopulatedStore :=
  (db.filter keep).map (populate reviews)

/-- The single-record read path: the first matching store, if any, passes
through the populate hook attached before findOne. -/
def findOneStore (keep : StoreDoc → Bool) (db : List StoreDoc)
    (reviews : List ReviewDoc) : Option PopulatedStore :=
  (db.find? keep).map (populate reviews)

/-! ### Concrete data used by witnesses and counterexamples -/

/-- Three stores carrying the tag sequences of the spec's tag-report example. -/
def tagDemoStores : List StoreDoc :=
  [⟨1, "One", "one", "", ["a", "b"]⟩, ⟨2, "Two", "two", "", ["a"]⟩,
   ⟨3, "Three", "three", "", ["b", "b"]⟩]

/-- A single demo store for the average-rating witness. -/
def c6Store : StoreDoc := ⟨1, "Cafe", "cafe", "photo", []⟩

/-- Two reviews of the demo store, rated 4 and 5. -/
def c6Reviews : List ReviewDoc := [⟨1, 4⟩, ⟨1, 5⟩]

/-- Six stores, used to show the report is not truncated below ten. -/
def sixStores : List StoreDoc :=
  [⟨1, "A", "a", "", []⟩, ⟨2, "B", "b", "", []⟩, ⟨3, "C", "c", "", []⟩,
   ⟨4, "D", "d", "", []⟩, ⟨5, "E", "e", "", []⟩, ⟨6, "F", "f", "", []⟩]

/-- Two reviews for each of the six stores, so all six qualify. -/
def sixReviews : List ReviewDoc :=
  [⟨1, 3⟩, ⟨1, 3⟩, ⟨2, 3⟩, ⟨2, 3⟩, ⟨3, 3⟩, ⟨3, 3⟩,
   ⟨4, 3⟩, ⟨4, 3⟩, ⟨5, 3⟩, ⟨5, 3⟩, ⟨6, 3⟩, ⟨6, 3⟩]

/-- A demo store for the read-path population witness. -/
def c8Store : StoreDoc := ⟨9, "Nine", "nine", "", []⟩

/-! ### Helper lemmas -/

theorem stripBase_eq_some (as : List Char) :
    ∀ b rest : List Char, stripBase as b = some rest ↔ b = as ++ rest := by
  induction as with
  | nil => intro b rest; simp [stripBase]
  | cons a as ih =>
    intro b rest
    cases b with
    | nil => simp [stripBase]
    | cons c cs =>
      simp only [stripBase, List.cons_append]
      by_cases hac : a = c
      · subst hac
        simp [ih]
      · rw [if_neg hac]
        constructor
        · intro h; exact absurd h (by simp)
        · intro h
          injection h with h1 _
          exact absurd h1.symm hac

theorem suffixMatches_iff (rest : List Char) :
    suffixMatches rest = true ↔
      rest = [] ∨ ∃ ds : List Char, (∀ c ∈ ds, c.isDigit = true) ∧ rest = '-' :: ds := by
  cases rest with
  | nil => simp [suffixMatches]
  | cons c ds =>
    simp only [suffixMatches, Bool.and_eq_true, beq_iff_eq, List.all_eq_true]
    constructor
    · rintro ⟨rfl, h⟩
      exact Or.inr ⟨ds, h, rfl⟩
    · rintro (h | ⟨ds2, h2, heq⟩)
      · exact absurd h (by simp)
      · injection heq with h1 h2eq
        subst h1; subst h2eq
        exact ⟨rfl, h2⟩

theorem charListLe_cons_iff (a b : Char) (as bs : List Char) :
    charListLe (a :: as) (b :: bs) = true ↔
      a.toNat < b.toNat ∨ (a.toNat = b.toNat ∧ charListLe as bs = true) := by
  simp only [charListLe]
  by_cases h1 : a.toNat < b.toNat
  · simp [h1]
  · by_cases h2 : b.toNat < a.toNat
    · have hne : a.toNat ≠ b.toNat := by omega
      simp [h1, h2, hne]
    · have h3 : a.toNat = b.toNat := by omega
      simp [h1, h2, h3]

theorem charListLe_total : ∀ as bs : List Char,
    charListLe as bs = true ∨ charListLe bs as = true := by
  intro as
  induction as with
  | nil => intro bs; exact Or.inl rfl
  | cons a as ih =>
    intro bs
    cases bs with
    | nil => exact Or.inr rfl
    | cons b bs =>
      rw [charListLe_cons_iff, charListLe_cons_iff]
      rcases Nat.lt_trichotomy a.toNat b.toNat with h | h | h
      · exact Or.inl (Or.inl h)
      · rcases ih bs with hrec | hrec
        · exact Or.inl (Or.inr ⟨h, hrec⟩)
        · exact Or.inr (Or.inr ⟨h.symm, hrec⟩)
      · exact Or.inr (Or.inl h)

theorem charListLe_trans : ∀ as bs cs : List Char,
    charListLe as bs = true → charListLe bs cs = true → charListLe as cs = true := by
  intro as
  induction as with
  | nil => intro bs cs _ _; rfl
  | cons a as ih =>
    intro bs cs hab hbc
    cases bs with
    | nil => exact absurd hab (by simp [charListLe])
    | cons b bs =>
      cases cs with
      | nil => exact absurd hbc (by simp [charListLe])
      | cons c cs =>
        rw [charListLe_cons_iff] at hab hbc ⊢
        rcases hab with h1 | ⟨heq1, h1⟩
        · rcases hbc with h2 | ⟨heq2, h2⟩
          · exact Or.inl (by omega)
          · exact Or.inl (by omega)
        · rcases hbc with h2 | ⟨heq2, h2⟩
          · exact Or.inl (by omega)
          · exact Or.inr ⟨by omega, ih bs cs h1 h2⟩

theorem tagRel_total (a b : String × Nat) : tagRel a b ∨ tagRel b a := by
  unfold tagRel tagLeB
  simp only [Bool.or_eq_true, Bool.and_eq_true, decide_eq_true_eq, beq_iff_eq]
  rcases Nat.lt_trichotomy a.2 b.2 with h | h | h
  · exact Or.inr (Or.inl h)
  · rcases charListLe_total a.1.data b.1.data with hc | hc
    · exact Or.inl (Or.inr ⟨h, hc⟩)
    · exact Or.inr (Or.inr ⟨h.symm, hc⟩)
  · exact Or.inl (Or.inl h)

theorem tagRel_trans (a b c : String × Nat) :
    tagRel a b → tagRel b c → tagRel a c := by
  unfold tagRel tagLeB
  simp only [Bool.or_eq_true, Bool.and_eq_true, decide_eq_true_eq, beq_iff_eq]
  rintro (h1 | ⟨heq1, h1⟩) (h2 | ⟨heq2, h2⟩)
  · exact Or.inl (by omega)
  · exact Or.inl (by omega)
  · exact Or.inl (by omega)
  · exact Or.inr ⟨by omega, charListLe_trans _ _ _ h1 h2⟩

theorem of_mem_getTopStores {stores : List StoreDoc} {reviews : List ReviewDoc}
    {e : StoreSummary} (he : e ∈ getTopStores stores reviews) :
    ∃ s, s ∈ stores ∧ e = mkSummary s (joinedReviews reviews s) ∧
      2 ≤ (joinedReviews reviews s).length := by
  have h1 : e ∈ (projectStage (matchStage (lookupStage stores reviews))).insertionSort
      summaryRel := (List.take_sublist _ _).subset he
  have h2 : e ∈ projectStage (matchStage (lookupStage stores reviews)) :=
    (List.perm_insertionSort summaryRel _).subset h1
  obtain ⟨p, hp, rfl⟩ := List.mem_map.mp h2
  have hp2 := List.mem_filter.mp hp
  obtain ⟨s, hs, rfl⟩ := List.mem_map.mp hp2.1
  refine ⟨s, hs, rfl, ?_⟩
  simpa using hp2.2

/-! ### Claim theorems -/

/-- Claim C1: starting from a catalog with no slug matching the base
`coffee-shop`, creating three stores named "Coffee Shop" sequentially assigns
the slugs `coffee-shop`, `coffee-shop-2`, `coffee-shop-3`; in general, when no
existing slug matches the collision pattern the base slug is used as-is, and
when n existing slugs match the new slug is the base followed by a hyphen and
n + 1. -/
theorem assignSlug_count_based :
    sequentialSlugs ["Coffee Shop", "Coffee Shop", "Coffee Shop"] =
        ["coffee-shop", "coffee-shop-2", "coffee-shop-3"] ∧
    (∀ base existing, (existing.filter (fun s => matchesSlug base s)).length = 0 →
        assignSlug base existing = base) ∧
    (∀ base existing n, 0 < n →
        (existing.filter (fun s => matchesSlug base s)).length = n →
        assignSlug base existing = base ++ "-" ++ toString (n + 1)) := by
  refine ⟨by decide, ?_, ?_⟩
  · intro base existing h
    simp [assignSlug, h]
  · intro base existing n hn h
    have hne : n ≠ 0 := by omega
    simp [assignSlug, h, hne]

/-- Witness for claim C1: one existing slug matches the base `coffee-shop`,
so the new slug is `coffee-shop-2`. -/
theorem assignSlug_count_based_witness :
    assignSlug "coffee-shop" ["coffee-shop", "burger"] = "coffee-shop-2" :=
  assignSlug_count_based.2.2 "coffee-shop" ["coffee-shop", "burger"] 1
    (by decide) (by decide)

/-- Claim C2: re-saving a stored record without a modified name leaves the
record, and in particular its slug, unchanged: the slug-derivation branch of
the pre-save hook does not run. -/
theorem preSaveSlug_unmodified_name (st : StoreRecord) (existing : List String) :
    preSaveSlug st false existing = st ∧
    (preSaveSlug st false existing).slug = st.slug :=
  ⟨rfl, rfl⟩

/-- Claim C3 counterexample: the source regex uses `-[0-9]*` (zero or more
digits), so the slug consisting of the base followed by a bare trailing
hyphen IS counted as a collision, though the spec's pattern `-[0-9]+` does
not match it; with it as the only existing slug the new slug becomes
`coffee-shop-2`. -/
theorem matchesSlug_bare_hyphen_counterexample :
    matchesSlug "coffee-shop" "coffee-shop-" = true ∧
    specPatternMatches "coffee-shop" "coffee-shop-" = false ∧
    assignSlug "coffee-shop" ["coffee-shop-"] = "coffee-shop-2" := by
  decide

/-- Claim C3 (amended): the set of slugs counted as collisions is exactly
those matching `^(base)(-[0-9]*)?$` case-insensitively: the base itself, or
the base followed by a hyphen and zero or more digits (so a bare trailing
hyphen is also counted). -/
theorem matchesSlug_characterization (base s : String) :
    matchesSlug base s = true ↔
      s.data.map Char.toLower = base.data.map Char.toLower ∨
      ∃ ds : List Char, (∀ c ∈ ds, c.isDigit = true) ∧
        s.data.map Char.toLower = base.data.map Char.toLower ++ '-' :: ds := by
  unfold matchesSlug
  cases hstrip : stripBase (base.data.map Char.toLower) (s.data.map Char.toLower) with
  | none =>
    simp only [Bool.false_eq_true, false_iff]
    rintro (heq | ⟨ds, hds, heq⟩)
    · have h2 := (stripBase_eq_some (base.data.map Char.toLower)
          (s.data.map Char.toLower) []).mpr (by simp [heq])
      rw [hstrip] at h2
      simp at h2
    · have h2 := (stripBase_eq_some (base.data.map Char.toLower)
          (s.data.map Char.toLower) ('-' :: ds)).mpr heq
      rw [hstrip] at h2
      simp at h2
  | some rest =>
    have hdecomp := (stripBase_eq_some _ _ rest).mp hstrip
    rw [hdecomp, suffixMatches_iff]
    simp

/-- Claim C4: the top-rated report includes a store exactly when it has
strictly more than one joined review. A store with at most one review never
contributes an entry (a normal outcome, the pipeline returns without error),
and a store with two or more reviews is included whenever the qualifying
stores fit under the hard ten-entry cutoff. -/
theorem topStores_review_threshold (stores : List StoreDoc) (reviews : List ReviewDoc) :
    (∀ s ∈ stores, (joinedReviews reviews s).length ≤ 1 →
        ∀ e ∈ getTopStores stores reviews, e.id ≠ s.id) ∧
    (∀ s ∈ stores, 2 ≤ (joinedReviews reviews s).length →
        (matchStage (lookupStage stores reviews)).length ≤ 10 →
        mkSummary s (joinedReviews reviews s) ∈ getTopStores stores reviews) := by
  constructor
  · intro s hs hle e he hid
    obtain ⟨t, ht, rfl, h2⟩ := of_mem_getTopStores he
    simp only [mkSummary] at hid
    have hjoin : joinedReviews reviews t = joinedReviews reviews s := by
      unfold joinedReviews
      rw [hid]
    rw [hjoin] at h2
    omega
  · intro s hs h2 hlen
    have hmem1 : (s, joinedReviews reviews s) ∈ lookupStage stores reviews :=
      List.mem_map.mpr ⟨s, hs, rfl⟩
    have hmem2 : (s, joinedReviews reviews s) ∈ matchStage (lookupStage stores reviews) :=
      List.mem_filter.mpr ⟨hmem1, by simpa using h2⟩
    have hmem3 : mkSummary s (joinedReviews reviews s) ∈
        projectStage (matchStage (lookupStage stores reviews)) :=
      List.mem_map.mpr ⟨_, hmem2, rfl⟩
    have hmem4 : mkSummary s (joinedReviews reviews s) ∈
        (projectStage (matchStage (lookupStage stores reviews))).insertionSort summaryRel :=
      ((List.perm_insertionSort summaryRel _).mem_iff).mpr hmem3
    have hlen2 : ((projectStage (matchStage (lookupStage stores reviews))).insertionSort
        summaryRel).length ≤ 10 := by
      rw [List.length_insertionSort]
      simpa [projectStage] using hlen
    unfold getTopStores
    rw [List.take_of_length_le hlen2]
    exact hmem4

/-- Witness for claim C4: of two stores, the one with two reviews appears in
the report. -/
theorem topStores_review_threshold_witness :
    mkSummary ⟨2, "Deux", "deux", "p2", []⟩
        (joinedReviews [⟨2, 4⟩, ⟨2, 5⟩] ⟨2, "Deux", "deux", "p2", []⟩) ∈
      getTopStores [⟨1, "Un", "un", "p1", []⟩, ⟨2, "Deux", "deux", "p2", []⟩]
        [⟨2, 4⟩, ⟨2, 5⟩] :=
  (topStores_review_threshold _ _).2 ⟨2, "Deux", "deux", "p2", []⟩
    (by decide) (by decide) (by decide)

/-- Claim C5: the tag report counts every tag occurrence independently across
all stores (a pair is in the report exactly when the tag occurs and its count
is the number of occurrences in the unwound tag stream), the report is sorted
by count descending with ties broken by tag value ascending (code-point
lexicographic), and over tag lists a,b / a / b,b it yields b:3 then a:2. -/
theorem getTagsList_counts_and_sorted :
    (∀ (stores : List StoreDoc) (t : String) (n : Nat),
        ((t, n) ∈ getTagsList stores ↔
          t ∈ allTagOccurrences stores ∧ n = (allTagOccurrences stores).count t)) ∧
    (∀ stores : List StoreDoc, (getTagsList stores).Pairwise
        (fun a b => b.2 < a.2 ∨ (a.2 = b.2 ∧ charListLe a.1.data b.1.data = true))) ∧
    getTagsList tagDemoStores = [("b", 3), ("a", 2)] := by
  refine ⟨?_, ?_, by decide⟩
  · intro stores t n
    unfold getTagsList
    rw [(List.perm_insertionSort tagRel _).mem_iff]
    constructor
    · intro h
      obtain ⟨a, ha, heq⟩ := List.mem_map.mp h
      have h1 : a = t := congrArg Prod.fst heq
      have h2 : (allTagOccurrences stores).count a = n := congrArg Prod.snd heq
      subst h1
      exact ⟨List.mem_dedup.mp ha, h2.symm⟩
    · rintro ⟨ht, rfl⟩
      exact List.mem_map.mpr ⟨t, List.mem_dedup.mpr ht, rfl⟩
  · intro stores
    haveI : IsTotal (String × Nat) tagRel := ⟨tagRel_total⟩
    haveI : IsTrans (String × Nat) tagRel := ⟨tagRel_trans⟩
    have hs := List.sorted_insertionSort tagRel
      ((allTagOccurrences stores).dedup.map
        (fun t => (t, (allTagOccurrences stores).count t)))
    unfold getTagsList
    refine List.Pairwise.imp ?_ hs
    intro a b hab
    unfold tagRel tagLeB at hab
    simpa only [Bool.or_eq_true, Bool.and_eq_true, decide_eq_true_eq,
      beq_iff_eq] using hab

/-- Claim C6: every report entry's average rating is the arithmetic mean of
the ratings of exactly the reviews joined to that store (its reviews field is
exactly the reviews referencing its id), and the report is ordered by average
rating descending. -/
theorem topStores_average_and_order (stores : List StoreDoc) (reviews : List ReviewDoc) :
    (∀ e ∈ getTopStores stores reviews,
        e.averageRating = (e.reviews.map ReviewDoc.rating).sum / (e.reviews.length : ℚ) ∧
        e.reviews = reviews.filter (fun r => r.store == e.id)) ∧
    (getTopStores stores reviews).Pairwise
      (fun a b => b.averageRating ≤ a.averageRating) := by
  constructor
  · intro e he
    obtain ⟨s, hs, rfl, h2⟩ := of_mem_getTopStores he
    exact ⟨rfl, rfl⟩
  · haveI : IsTotal StoreSummary summaryRel :=
      ⟨fun a b => le_total b.averageRating a.averageRating⟩
    haveI : IsTrans StoreSummary summaryRel :=
      ⟨fun x y z h1 h2 => le_trans h2 h1⟩
    have hs := List.sorted_insertionSort summaryRel
      (projectStage (matchStage (lookupStage stores reviews)))
    have hpair : ((projectStage (matchStage (lookupStage stores reviews))).insertionSort
        summaryRel).Pairwise (fun a b => b.averageRating ≤ a.averageRating) := hs
    unfold getTopStores
    exact List.Pairwise.sublist (List.take_sublist 10 _) hpair

/-- Witness for claim C6: the single qualifying store's entry carries the
mean of its two joined ratings and exactly those reviews. -/
theorem topStores_average_and_order_witness :
    (mkSummary c6Store (joinedReviews c6Reviews c6Store)).averageRating =
        (((mkSummary c6Store (joinedReviews c6Reviews c6Store)).reviews.map
            ReviewDoc.rating).sum /
          (((mkSummary c6Store (joinedReviews c6Reviews c6Store)).reviews.length : ℚ))) ∧
    (mkSummary c6Store (joinedReviews c6Reviews c6Store)).reviews =
        c6Reviews.filter
          (fun r => r.store == (mkSummary c6Store (joinedReviews c6Reviews c6Store)).id) :=
  (topStores_average_and_order [c6Store] c6Reviews).1 _ (by
    have h : getTopStores [c6Store] c6Reviews =
        [mkSummary c6Store (joinedReviews c6Reviews c6Store)] := rfl
    rw [h]
    exact List.mem_cons_self _ _)

/-- Claim C7 counterexample: the pipeline has no limit parameter; with six
qualifying stores the report has six entries, so a caller wanting at most
five entries cannot obtain that, and no limit other than the hard-coded ten
can be requested. -/
theorem getTopStores_has_no_limit_argument :
    (getTopStores sixStores sixReviews).length = 6 ∧
    ¬ (getTopStores sixStores sixReviews).length ≤ 5 := by
  have h : (getTopStores sixStores sixReviews).length = 6 := by
    unfold getTopStores
    rw [List.length_take, List.length_insertionSort]
    decide
  exact ⟨h, by omega⟩

/-- Claim C7 (amended): the top-stores report takes no limit argument and is
always truncated to at most ten entries, the hard-coded limit. -/
theorem getTopStores_truncates_to_ten (stores : List StoreDoc) (reviews : List ReviewDoc) :
    (getTopStores stores reviews).length ≤ 10 := by
  unfold getTopStores
  rw [List.length_take]
  exact Nat.min_le_left _ _

/-- Claim C8: every store returned through the multi-record or single-record
read path carries a reviews field equal to exactly the reviews whose store
reference matches the store's id (the empty list when there are none); the
view is computed at read time and the underlying store document carries no
reviews field. -/
theorem reads_populate_reviews :
    (∀ (keep : StoreDoc → Bool) (db : List StoreDoc) (reviews : List ReviewDoc)
        (ps : PopulatedStore), ps ∈ findStores keep db reviews →
          ps.reviews = reviews.filter (fun r => r.store == ps.store.id)) ∧
    (∀ (keep : StoreDoc → Bool) (db : List StoreDoc) (reviews : List ReviewDoc)
        (ps : PopulatedStore), findOneStore keep db reviews = some ps →
          ps.reviews = reviews.filter (fun r => r.store == ps.store.id)) := by
  constructor
  · intro keep db reviews ps hps
    obtain ⟨s, _, rfl⟩ := List.mem_map.mp hps
    rfl
  · intro keep db reviews ps hps
    obtain ⟨s, _, rfl⟩ := Option.map_eq_some'.mp hps
    rfl

/-- Witness for claim C8: a store read with no reviews in the database comes
back with the empty reviews view. -/
theorem reads_populate_reviews_witness :
    (populate [] c8Store).reviews =
      ([] : List ReviewDoc).filter
        (fun r => r.store == (populate [] c8Store).store.id) :=
  reads_populate_reviews.1 (fun _ => true) [c8Store] [] (populate [] c8Store)
    (by decide)

/-- Claim C9: creating a store whose name is empty or whitespace-only fails
validation with the missing-name error before anything runs, so no record and
no slug are persisted (the result carries no catalog). -/
theorem createStore_blank_name_fails (input : StoreInput) (catalog : List StoreRecord)
    (h : (input.name.map strTrim).getD "" = "") :
    createStore input catalog = Except.error ValidationError.missingName := by
  simp [createStore, validateInput, h]

/-- Witness for claim C9: a whitespace-only name is rejected. -/
theorem createStore_blank_name_fails_witness :
    createStore ⟨some "   ", some "1 Main St", some 1, [0, 0], []⟩ [] =
      Except.error ValidationError.missingName :=
  createStore_blank_name_fails _ _ (by decide)

/-- Claim C10 counterexample: schema validation does not constrain the
coordinate count, so a create supplying three numeric components succeeds and
persists a store whose coordinates have three components, violating the
claimed exactly-two invariant. -/
theorem coordinates_arity_counterexample :
    createStore ⟨some "Taco Place", some "5 Ave", some 7, [1, 2, 3], []⟩ [] =
      Except.ok (⟨"Taco Place", "taco-place", "5 Ave", 7, [1, 2, 3], []⟩,
        [⟨"Taco Place", "taco-place", "5 Ave", 7, [1, 2, 3], []⟩]) := rfl

/-- Claim C10 (amended): the schema types the coordinates as numbers but does
not constrain their count; any otherwise valid create succeeds and persists
exactly the supplied coordinate list, of whatever length (including empty for
an omitted array). -/
theorem createStore_coordinates_unconstrained (input : StoreInput)
    (catalog : List StoreRecord)
    (hn : ¬ (input.name.map strTrim).getD "" = "")
    (ha : ¬ input.address.getD "" = "")
    (hu : ¬ input.author = none) :
    (createStore input catalog).map (fun p => p.1.coordinates) =
      Except.ok input.coordinates := by
  simp [createStore, validateInput, hn, ha, hu, Except.map]

/-- Witness for claim C10 (amended): a valid create with a single coordinate
component persists that one-component list. -/
theorem createStore_coordinates_unconstrained_witness :
    (createStore ⟨some "Burger Barn", some "9 Rd", some 3, [5], []⟩ []).map
        (fun p => p.1.coordinates) = Except.ok [5] :=
  createStore_coordinates_unconstrained _ _ (by decide) (by decide) (by decide)

end StoreApp
